import Mathlib

/-!
Verification development for the helia-tests peer-connection workflow
(01-ip4-peer-connect).  The JavaScript sources are shallowly embedded:
the private-message handlers, the peer-registry merge logic, the
acknowledgment composition of the responder workflow, the condition-poll
primitive, and the initiator connection phase become pure Lean functions
over explicit state, with JavaScript truthiness modelled explicitly
(an empty string, the number 0, null and undefined are falsy).
-/

/-- The JSON object shape exchanged by the two roles.  Fields that a role
never sets are `none` (JavaScript `undefined`).  `fromF` embeds the JSON
field named `from` (a Lean keyword). -/
structure Envelope where
  test : Option Bool := none
  fromF : Option String := none
  randomNumber : Option Int := none
  timestamp : Option String := none
  encryptPubKey : Option String := none
  acknowledgment : Option Bool := none
  ack : Option Bool := none
  response : Option Bool := none
  receivedRandomNumber : Option Int := none
  originalTimestamp : Option String := none
deriving DecidableEq

/-- Result of the inner `JSON.parse` try/catch in each handler: either the
parsed object or, on parse failure, the raw string itself. -/
inductive MessageData where
  | obj (e : Envelope)
  | str (s : String)
deriving DecidableEq

/-- A decrypted payload as delivered to `handlePrivateMessage`: either a
string that `JSON.parse` maps to an envelope, or one on which it throws. -/
inductive DecryptedPayload where
  | jsonOf (e : Envelope)
  | nonJson (s : String)
deriving DecidableEq

/-- The `try { messageData = JSON.parse(decryptedPayload) } catch
{ messageData = decryptedPayload }` pattern shared by every handler. -/
def parseOrString : DecryptedPayload → MessageData
  | .jsonOf e => .obj e
  | .nonJson s => .str s

/-- JavaScript truthiness of an optional string (`undefined`, `null` and
the empty string are falsy). -/
def truthyOptStr : Option String → Bool
  | some s => !(s == "")
  | none => false

/-- JavaScript truthiness of an optional boolean field. -/
def truthyOptBool : Option Bool → Bool
  | some b => b
  | none => false

/-- `x || null` for a JSON number field: 0, `null` and `undefined` collapse
to `null`. -/
def jsNumOrNull : Option Int → Option Int
  | some n => if n = 0 then none else some n
  | none => none

/-- `x || null` for a JSON string field: the empty string, `null` and
`undefined` collapse to `null`. -/
def jsStrOrNull : Option String → Option String
  | some s => if s == "" then none else some s
  | none => none

/-- Alice classification (alice.js lines 126-130 and 471-475):
`messageData && (messageData.test === true || messageData.from === 'bob' ||
(typeof messageData === 'object' && messageData.randomNumber !== undefined))`.
A string has no `test`/`from` properties and is not of type `object`,
so no string is ever classified as a test message. -/
def isTestMessage : MessageData → Bool
  | .obj e => e.test == some true || e.fromF == some "bob" || e.randomNumber.isSome
  | .str _ => false

/-- Test state of the first alice variant (alice.js lines 40-43). -/
structure Alice1State where
  bobPeerId : Option String
  testMessageReceived : Bool
  testMessageData : Option MessageData
deriving DecidableEq

/-- Body of the first alice variant handler (alice.js lines 111-156),
without the surrounding catch-all.  The only fallible primitive,
`JSON.parse`, is already handled by its local try/catch
(`parseOrString`), so no branch of the body throws. -/
def handlePrivateMessageA1Body (st : Alice1State) (decryptedPayload : DecryptedPayload)
    (fromId : String) : Except String Alice1State := do
  let messageData := parseOrString decryptedPayload
  if isTestMessage messageData then
    let st1 := if !truthyOptStr st.bobPeerId then { st with bobPeerId := some fromId } else st
    if st1.bobPeerId == some fromId then
      return { st1 with testMessageReceived := true, testMessageData := some messageData }
    else
      return st1
  else
    return st

/-- The full first alice variant handler: its body wrapped in the
`try { ... } catch (err) { console.error(...) }` of lines 112-155, which
swallows any exception and leaves the state as it was. -/
def handlePrivateMessageA1 (st : Alice1State) (decryptedPayload : DecryptedPayload)
    (fromId : String) : Alice1State :=
  match handlePrivateMessageA1Body st decryptedPayload fromId with
  | .ok st1 => st1
  | .error _ => st

/-- Fold of the first alice handler over a sequence of inbound messages,
each a decrypted payload together with its sender identity. -/
def handleSeqA1 (st : Alice1State) (msgs : List (DecryptedPayload × String)) : Alice1State :=
  msgs.foldl (fun s m => handlePrivateMessageA1 s m.1 m.2) st

/-- ASCII lower-casing of one character, the effect of
`String.prototype.toLowerCase` on the ASCII payload strings involved. -/
def asciiLower (c : Char) : Char :=
  if 'A' ≤ c && c ≤ 'Z' then Char.ofNat (c.toNat + 32) else c

/-- Does `l` start with the pattern `pat`? -/
def startsWithChars : List Char → List Char → Bool
  | [], _ => true
  | _ :: _, [] => false
  | p :: ps, c :: cs => p == c && startsWithChars ps cs

/-- Does `l` contain the pattern `pat` as a contiguous run
(`String.prototype.includes`)? -/
def hasSubChars (pat : List Char) : List Char → Bool
  | [] => startsWithChars pat []
  | c :: cs => startsWithChars pat (c :: cs) || hasSubChars pat cs

/-- `s.toLowerCase().includes(sub)` for the payload strings involved. -/
def jsIncludesLower (s sub : String) : Bool :=
  hasSubChars sub.data (s.data.map asciiLower)

/-- Bob classification (part_000 lines 163-171, part_001 lines 158-166):
`messageData && (messageData.acknowledgment || messageData.ack ||
messageData.response || (typeof messageData === 'string' &&
(messageData.toLowerCase().includes('ack') ||
messageData.toLowerCase().includes('acknowledgment'))))`. -/
def isAcknowledgment : MessageData → Bool
  | .obj e => truthyOptBool e.acknowledgment || truthyOptBool e.ack || truthyOptBool e.response
  | .str s => !(s == "") && (jsIncludesLower s "ack" || jsIncludesLower s "acknowledgment")

/-- Test state of the bob variants (part_000 lines 45-47, part_001 lines 43-45). -/
structure BobState where
  alicePeerId : Option String
  acknowledgmentReceived : Bool
  acknowledgmentData : Option MessageData
deriving DecidableEq

/-- Body of the bob handler (part_000 lines 134-183, identical in part_001
lines 129-178), without the surrounding catch-all. -/
def handlePrivateMessageBobBody (st : BobState) (decryptedPayload : DecryptedPayload)
    (fromId : String) : Except String BobState := do
  let isFromAlice := if truthyOptStr st.alicePeerId then st.alicePeerId == some fromId else true
  if isFromAlice then
    let st1 := if !truthyOptStr st.alicePeerId then { st with alicePeerId := some fromId } else st
    if st1.alicePeerId == some fromId then
      let messageData := parseOrString decryptedPayload
      if isAcknowledgment messageData then
        return { st1 with acknowledgmentReceived := true, acknowledgmentData := some messageData }
      else
        return st1
    else
      return st1
  else
    return st

/-- The full bob handler: its body wrapped in the catch-all of part_000
lines 135-182. -/
def handlePrivateMessageBob (st : BobState) (decryptedPayload : DecryptedPayload)
    (fromId : String) : BobState :=
  match handlePrivateMessageBobBody st decryptedPayload fromId with
  | .ok st1 => st1
  | .error _ => st

/-- The inner `data` object of a peerData entry, projected to the field the
workflow reads and writes. -/
structure PeerDataInner where
  encryptPubKey : Option String
deriving DecidableEq

/-- One entry of `thisNode.peerData`.  `fromF` embeds the JSON field named
`from`; `data` may be absent (`null`/`undefined`). -/
structure PeerDataEntry where
  fromF : String
  data : Option PeerDataInner
deriving DecidableEq

/-- The registry owned by `ipfsCoord.thisNode`: the ordered identity list
`peerList` and the record list `peerData`. -/
structure ThisNode where
  peerList : List String
  peerData : List PeerDataEntry
deriving DecidableEq

/-- Truthiness of `entry.data && entry.data.encryptPubKey`: the negation of
the guard `!existingPeerData[0].data || !existingPeerData[0].data.encryptPubKey`. -/
def truthyData (e : PeerDataEntry) : Bool :=
  match e.data with
  | some d => truthyOptStr d.encryptPubKey
  | none => false

/-- The in-place mutation `if (!e.data) e.data = {}; e.data.encryptPubKey = key`
applied to the first entry whose `from` equals `peerId` (the object
`existingPeerData[0]`, aliased into `peerData`). -/
def setKeyFirst : List PeerDataEntry → String → String → List PeerDataEntry
  | [], _, _ => []
  | e :: rest, peerId, key =>
    if e.fromF == peerId then { e with data := some { encryptPubKey := some key } } :: rest
    else e :: setKeyFirst rest peerId key

/-- The explicit key merge of the message-exchange logic
(alice.js runTest lines 262-292, likewise 744-774): filter `peerData` by
`from`, on no match push the identity (insert-if-absent) and a fresh record
carrying the key, otherwise set the key on the first matching record only
when it does not already carry a truthy key. -/
def addPeerWithKeyRunTest (node : ThisNode) (peerId key : String) : ThisNode :=
  match node.peerData.filter (fun x => x.fromF == peerId) with
  | [] =>
    { peerList := if node.peerList.contains peerId then node.peerList
                  else node.peerList ++ [peerId]
      peerData := node.peerData ++ [{ fromF := peerId, data := some { encryptPubKey := some key } }] }
  | e :: _ =>
    if !truthyData e then { node with peerData := setKeyFirst node.peerData peerId key }
    else node

/-- The key merge of the raw inbound-message pre-processing hook, the
wrapped `handleIncomingData` (alice.js lines 609-637). -/
def addPeerWithKeyWrapper (node : ThisNode) (peerId key : String) : ThisNode :=
  match node.peerData.filter (fun x => x.fromF == peerId) with
  | [] =>
    { peerList := if node.peerList.contains peerId then node.peerList
                  else node.peerList ++ [peerId]
      peerData := node.peerData ++ [{ fromF := peerId, data := some { encryptPubKey := some key } }] }
  | e :: _ =>
    if !truthyData e then { node with peerData := setKeyFirst node.peerData peerId key }
    else node

/-- The key merge performed inside the second alice variant handler
(alice.js lines 504-534). -/
def addPeerWithKeyHandler (node : ThisNode) (peerId key : String) : ThisNode :=
  match node.peerData.filter (fun x => x.fromF == peerId) with
  | [] =>
    { peerList := if node.peerList.contains peerId then node.peerList
                  else node.peerList ++ [peerId]
      peerData := node.peerData ++ [{ fromF := peerId, data := some { encryptPubKey := some key } }] }
  | e :: _ =>
    if !truthyData e then { node with peerData := setKeyFirst node.peerData peerId key }
    else node

/-- The first record of the registry for a given identity
(`peerData.filter(x => x.from === peerId)[0]`). -/
def firstPeerRecord (node : ThisNode) (peerId : String) : Option PeerDataEntry :=
  (node.peerData.filter (fun x => x.fromF == peerId)).head?

/-- The fresh record pushed by the merges when no record exists. -/
def freshEntry (pid key : String) : PeerDataEntry :=
  { fromF := pid, data := some { encryptPubKey := some key } }

/-- Truthy `encryptPubKey` of a parsed message: `messageData.encryptPubKey`
under JavaScript truthiness (a string has no such property). -/
def msgEncryptPubKey : MessageData → Option String
  | .obj e => if truthyOptStr e.encryptPubKey then e.encryptPubKey else none
  | .str _ => none

/-- Test state of the second alice variant (alice.js lines 382-385),
together with the registry reached through `ipfsCoordRef` and the flag
modelling `ipfsCoordRef && ipfsCoordRef.thisNode` being available. -/
structure Alice2State where
  bobPeerId : Option String
  testMessageReceived : Bool
  testMessageData : Option MessageData
  coordReady : Bool
  node : ThisNode
deriving DecidableEq

/-- Body of the second alice variant handler (alice.js lines 456-545):
the first variant plus the immediate key merge into peerData when the
classified message embeds a truthy `encryptPubKey` and `ipfsCoordRef`
is available (lines 500-539; the two warning branches change nothing). -/
def handlePrivateMessageA2Body (st : Alice2State) (decryptedPayload : DecryptedPayload)
    (fromId : String) : Except String Alice2State := do
  let messageData := parseOrString decryptedPayload
  if isTestMessage messageData then
    let st1 := if !truthyOptStr st.bobPeerId then { st with bobPeerId := some fromId } else st
    if st1.bobPeerId == some fromId then
      let st2 := { st1 with testMessageReceived := true, testMessageData := some messageData }
      match msgEncryptPubKey messageData with
      | some key =>
        if st2.coordReady then
          return { st2 with node := addPeerWithKeyHandler st2.node (st2.bobPeerId.getD "") key }
        else
          return st2
      | none =>
        return st2
    else
      return st1
  else
    return st

/-- The full second alice variant handler: its body wrapped in the
catch-all of alice.js lines 457-544. -/
def handlePrivateMessageA2 (st : Alice2State) (decryptedPayload : DecryptedPayload)
    (fromId : String) : Alice2State :=
  match handlePrivateMessageA2Body st decryptedPayload fromId with
  | .ok st1 => st1
  | .error _ => st

/-- The acknowledgment message composed by the responder
(alice.js runTest lines 298-304, likewise 780-786). -/
structure AckMessage where
  acknowledgment : Bool
  receivedRandomNumber : Option Int
  originalTimestamp : Option String
  timestamp : String
  fromF : String
deriving DecidableEq

/-- `testMessageData?.randomNumber`. -/
def msgRandomNumber : Option MessageData → Option Int
  | some (.obj e) => e.randomNumber
  | _ => none

/-- `testMessageData?.timestamp`. -/
def msgTimestamp : Option MessageData → Option String
  | some (.obj e) => e.timestamp
  | _ => none

/-- alice.js lines 298-304: the acknowledgment object, with
`receivedRandomNumber: testMessageData?.randomNumber || null` and
`originalTimestamp: testMessageData?.timestamp || null`; `now` stands for
`new Date().toISOString()`. -/
def composeAcknowledgment (testMessageData : Option MessageData) (now : String) : AckMessage :=
  { acknowledgment := true
    receivedRandomNumber := jsNumOrNull (msgRandomNumber testMessageData)
    originalTimestamp := jsStrOrNull (msgTimestamp testMessageData)
    timestamp := now
    fromF := "alice" }

/-- One `sendPrivateMessage` call issued by the responder workflow. -/
structure SendAction where
  toPeer : String
  message : AckMessage
deriving DecidableEq

/-- Outcome of the responder workflow steps after the probe poll: a thrown
error (with the `sendPrivateMessage` calls issued before the throw) or
normal completion. -/
inductive TestRunResult where
  | failed (err : String) (sends : List SendAction) (node : ThisNode)
  | completed (sends : List SendAction) (node : ThisNode)
deriving DecidableEq

/-- The combined guard of alice.js lines 255-257:
`!testMessageData || !testMessageData.encryptPubKey` fails to throw exactly
when the stored message is truthy and carries a truthy `encryptPubKey`. -/
def truthyEncryptKey : Option MessageData → Option String
  | some md => msgEncryptPubKey md
  | none => none

/-- The responder workflow of alice.js runTest after the probe poll
(lines 247-314, likewise 729-796): check `bobPeerId` (line 248), check the
embedded key (line 255), merge the key into the registry (lines 262-292),
compose the acknowledgment (lines 298-304) and send it to `bobPeerId`
(lines 308-312).  Each throw happens strictly before any send, which the
empty send list of the `failed` cases records. -/
def runTestAfterProbe (bobPeerId : Option String) (testMessageData : Option MessageData)
    (node : ThisNode) (now : String) : TestRunResult :=
  if truthyOptStr bobPeerId then
    match truthyEncryptKey testMessageData with
    | none => .failed "Bob\x27s encryption public key not found in test message" [] node
    | some key =>
      let pid := bobPeerId.getD ""
      let node1 := addPeerWithKeyRunTest node pid key
      .completed [{ toPeer := pid, message := composeAcknowledgment testMessageData now }] node1
  else
    .failed "Bob peer ID not identified from message" [] node

/-- The timeout error message thrown by `pollUntil`
(alice.js line 212, part_000 line 239, part_001 line 234). -/
def timeoutErrMsg (description : String) (timeoutMs : Nat) : String :=
  "Timeout waiting for " ++ description ++ " after " ++ toString timeoutMs ++ "ms"

/-- Instrumented outcome of one `pollUntil` call: the number of predicate
evaluations performed and the elapsed wall-clock milliseconds. -/
inductive PollResult where
  | success (evals : Nat) (elapsed : Nat)
  | timedOut (msg : String) (evals : Nat) (elapsed : Nat)
  | fuelOut
deriving DecidableEq

/-- The `pollUntil` loop (alice.js lines 204-213, part_000 lines 231-240):
while `Date.now() - startTime < timeoutMs`, evaluate the predicate, return
on true, otherwise `await sleep(intervalMs)` and repeat; on loop exit throw
the timeout error.  `cond k` is the value of the predicate at its k-th
evaluation; `sleepDur k` is the real duration of the k-th sleep (at least
`intervalMs`, since `setTimeout` never fires early); `elapsed` plays
`Date.now() - startTime` and `fuel` bounds the recursion. -/
def pollUntilRun (cond : Nat → Bool) (intervalMs timeoutMs : Nat) (description : String)
    (sleepDur : Nat → Nat) (fuel elapsed evals : Nat) : PollResult :=
  if elapsed < timeoutMs then
    match fuel with
    | 0 => .fuelOut
    | f + 1 =>
      if cond evals then .success (evals + 1) elapsed
      else pollUntilRun cond intervalMs timeoutMs description sleepDur
        f (elapsed + sleepDur evals) (evals + 1)
  else
    .timedOut (timeoutErrMsg description timeoutMs) evals elapsed

/-- Outcome of `ipfsCoord.adapters.ipfs.connectToPeer({ multiaddr })`
(part_001 lines 249-251): a result object with `success` true, one with
`success` false and failure `details`, or a thrown exception. -/
inductive ConnectOutcome where
  | success
  | failedResult (details : String)
  | exn (msg : String)
deriving DecidableEq

/-- Environment of one initiator run of the pinned-multiaddr branch
(part_001 runTest lines 243-343): the direct-connect outcome, the immediate
`getPeers().includes(alicePeerId)` check, and whether each bounded poll
meets its condition within its timeout. -/
structure InitiatorEnv where
  connect : ConnectOutcome
  connectedAfterDirect : Bool
  pollVerifyOk : Bool
  pollPeerDataDirectOk : Bool
  pollAnnouncementOk : Bool
  pollPeerDataFallbackOk : Bool
  refreshOk : Bool
  pollConnectionOk : Bool
deriving DecidableEq

/-- The externally visible steps of the initiator connection phase. -/
inductive InitStep where
  | directConnect
  | verifyPoll
  | peerDataPoll
  | announcementPoll
  | peerDataFallbackPoll
  | refreshConnections
  | connectionPoll
deriving DecidableEq

/-- The fallback block of the catch handler (part_001 lines 296-342):
poll for the announcement of the target identity, poll for its peer data,
trigger `refreshPeerConnections` (its own error swallowed, lines 325-330),
and poll for connectivity.  Returns the executed steps and the result. -/
def fallbackDiscovery (env : InitiatorEnv) : List InitStep × Except String Unit :=
  if !env.pollAnnouncementOk then
    ([.announcementPoll], .error (timeoutErrMsg "Alice announcement" 300000))
  else if !env.pollPeerDataFallbackOk then
    ([.announcementPoll, .peerDataFallbackPoll],
      .error (timeoutErrMsg "Alice peer data verification" 10000))
  else if !env.pollConnectionOk then
    ([.announcementPoll, .peerDataFallbackPoll, .refreshConnections, .connectionPoll],
      .error (timeoutErrMsg "connection to Alice" 30000))
  else
    ([.announcementPoll, .peerDataFallbackPoll, .refreshConnections, .connectionPoll], .ok ())

/-- The try block of the direct-connection attempt (part_001 lines 248-294):
connect, throw on `success` false (line 293), verify connectivity
immediately or through the verification poll, then poll for the peer data
announcement. -/
def directTryBody (env : InitiatorEnv) : List InitStep × Except String Unit :=
  match env.connect with
  | .exn m => ([.directConnect], .error m)
  | .failedResult details => ([.directConnect], .error ("Failed to connect: " ++ details))
  | .success =>
    if env.connectedAfterDirect then
      if env.pollPeerDataDirectOk then
        ([.directConnect, .peerDataPoll], .ok ())
      else
        ([.directConnect, .peerDataPoll],
          .error (timeoutErrMsg "Alice peer data from announcement" 300000))
    else if !env.pollVerifyOk then
      ([.directConnect, .verifyPoll], .error (timeoutErrMsg "connection verification" 10000))
    else if env.pollPeerDataDirectOk then
      ([.directConnect, .verifyPoll, .peerDataPoll], .ok ())
    else
      ([.directConnect, .verifyPoll, .peerDataPoll],
        .error (timeoutErrMsg "Alice peer data from announcement" 300000))

/-- The whole pinned-multiaddr connection phase (part_001 lines 243-343):
the try block, and on any error inside it the catch falls through to
`fallbackDiscovery`; the caught error itself is only logged. -/
def connectPhase (env : InitiatorEnv) : List InitStep × Except String Unit :=
  match directTryBody env with
  | (steps, .ok ()) => (steps, .ok ())
  | (steps, .error _) =>
    let fb := fallbackDiscovery env
    (steps ++ fb.1, fb.2)

/-- An event mutating the registry: a key observation on the inbound-message
path (the merge of alice.js lines 262-292 / 609-637), or one announcement
on the discovery-broadcast channel. -/
inductive RegistryEvent where
  | inboundKey (peerId key : String)
  | discovery (peerId : String) (key : Option String)
deriving DecidableEq

/-- Update of the first matching record by one announcement: learn the key
only if none is present. -/
def mergeKeyIfAbsent : List PeerDataEntry → String → Option String → List PeerDataEntry
  | [], _, _ => []
  | e :: rest, peerId, key =>
    if e.fromF == peerId then
      (if truthyData e then e else { e with data := some { encryptPubKey := key } }) :: rest
    else e :: mergeKeyIfAbsent rest peerId key

/-- Modelled from the spec: the discovery-broadcast listener that populates
the registry lives in the helia-coord library, not under src/.  Per the
spec, a PeerRecord is "created the first time a peer is observed", the
identity list is "append-only; an identity is added at most once, at first
sight", writes are "insert-if-absent, else merge", and a key once set is
never overwritten with an empty value. -/
def discoveryObserve (node : ThisNode) (peerId : String) (key : Option String) : ThisNode :=
  match node.peerData.filter (fun x => x.fromF == peerId) with
  | [] =>
    { peerList := if node.peerList.contains peerId then node.peerList
                  else node.peerList ++ [peerId]
      peerData := node.peerData ++ [{ fromF := peerId, data := some { encryptPubKey := key } }] }
  | _ :: _ => { node with peerData := mergeKeyIfAbsent node.peerData peerId key }

/-- One registry event applied to the registry. -/
def applyEvent (node : ThisNode) : RegistryEvent → ThisNode
  | .inboundKey peerId key => addPeerWithKeyRunTest node peerId key
  | .discovery peerId key => discoveryObserve node peerId key

/-- A whole sequence of discovery and inbound-message events. -/
def applyEvents (node : ThisNode) (evs : List RegistryEvent) : ThisNode :=
  evs.foldl applyEvent node

/-- The registry invariant of the data model: at most one record per
identity and no duplicate entry in the ordered identity list. -/
def RegistryInvariant (node : ThisNode) : Prop :=
  node.peerList.Nodup ∧ (node.peerData.map (fun x => x.fromF)).Nodup

theorem truthyOptStr_some {p : String} (hp : p ≠ "") : truthyOptStr (some p) = true := by
  simp [truthyOptStr, hp]

theorem a1Body_pinned_other (st : Alice1State) (p : String) (payload : DecryptedPayload)
    (f : String) (hpin : st.bobPeerId = some p) (hp : p ≠ "") (hf : f ≠ p) :
    handlePrivateMessageA1Body st payload f = .ok st := by
  have ht : truthyOptStr st.bobPeerId = true := by rw [hpin]; exact truthyOptStr_some hp
  have hbeq : (st.bobPeerId == some f) = false := by
    rw [hpin]; simp [beq_iff_eq]; exact fun h => hf h.symm
  unfold handlePrivateMessageA1Body
  simp only [ht, Bool.not_true, Bool.false_eq_true, if_false, hbeq]
  split <;> rfl

theorem a1_pinned_other (st : Alice1State) (p : String) (payload : DecryptedPayload)
    (f : String) (hpin : st.bobPeerId = some p) (hp : p ≠ "") (hf : f ≠ p) :
    handlePrivateMessageA1 st payload f = st := by
  unfold handlePrivateMessageA1
  rw [a1Body_pinned_other st p payload f hpin hp hf]

theorem a1Body_cases (st : Alice1State) (payload : DecryptedPayload) (f : String)
    (ht : truthyOptStr st.bobPeerId = true) :
    handlePrivateMessageA1Body st payload f = .ok st ∨
    handlePrivateMessageA1Body st payload f
      = .ok { st with testMessageReceived := true,
                      testMessageData := some (parseOrString payload) } := by
  unfold handlePrivateMessageA1Body
  simp only [ht, Bool.not_true, Bool.false_eq_true, if_false]
  split
  · split
    · right; rfl
    · left; rfl
  · left; rfl

theorem a1_pinned_preserved (st : Alice1State) (p : String) (payload : DecryptedPayload)
    (f : String) (hpin : st.bobPeerId = some p) (hp : p ≠ "") :
    (handlePrivateMessageA1 st payload f).bobPeerId = some p := by
  have ht : truthyOptStr st.bobPeerId = true := by rw [hpin]; exact truthyOptStr_some hp
  unfold handlePrivateMessageA1
  rcases a1Body_cases st payload f ht with h | h <;> rw [h] <;> exact hpin

theorem a2Body_pinned_other (st : Alice2State) (p : String) (payload : DecryptedPayload)
    (f : String) (hpin : st.bobPeerId = some p) (hp : p ≠ "") (hf : f ≠ p) :
    handlePrivateMessageA2Body st payload f = .ok st := by
  have ht : truthyOptStr st.bobPeerId = true := by rw [hpin]; exact truthyOptStr_some hp
  have hbeq : (st.bobPeerId == some f) = false := by
    rw [hpin]; simp [beq_iff_eq]; exact fun h => hf h.symm
  unfold handlePrivateMessageA2Body
  simp only [ht, Bool.not_true, Bool.false_eq_true, if_false, hbeq]
  split <;> rfl

theorem a2_pinned_other (st : Alice2State) (p : String) (payload : DecryptedPayload)
    (f : String) (hpin : st.bobPeerId = some p) (hp : p ≠ "") (hf : f ≠ p) :
    handlePrivateMessageA2 st payload f = st := by
  unfold handlePrivateMessageA2
  rw [a2Body_pinned_other st p payload f hpin hp hf]

theorem handleSeqA1_filter_pinned (msgs : List (DecryptedPayload × String))
    (st : Alice1State) (p : String) (hpin : st.bobPeerId = some p) (hp : p ≠ "") :
    handleSeqA1 st msgs = handleSeqA1 st (msgs.filter (fun m => m.2 == p)) := by
  induction msgs generalizing st with
  | nil => rfl
  | cons m t ih =>
    by_cases hm : m.2 = p
    · have hkeep : (m.2 == p) = true := by simp [hm]
      simp only [handleSeqA1, List.foldl_cons, List.filter_cons, hkeep, if_true]
      exact ih (handlePrivateMessageA1 st m.1 m.2)
        (a1_pinned_preserved st p m.1 m.2 hpin hp)
    · have hdrop : (m.2 == p) = false := by simp [hm]
      simp only [handleSeqA1, List.foldl_cons, List.filter_cons, hdrop, Bool.false_eq_true,
        if_false]
      rw [a1_pinned_other st p m.1 m.2 hpin hp hm]
      exact ih st hpin

theorem bobBody_pinned_from (st : BobState) (p : String) (payload : DecryptedPayload)
    (hpin : st.alicePeerId = some p) (hp : p ≠ "") :
    handlePrivateMessageBobBody st payload p =
      (if isAcknowledgment (parseOrString payload) then
        .ok { st with acknowledgmentReceived := true,
                      acknowledgmentData := some (parseOrString payload) }
      else .ok st) := by
  have ht : truthyOptStr st.alicePeerId = true := by rw [hpin]; exact truthyOptStr_some hp
  have hbeq : (st.alicePeerId == some p) = true := by rw [hpin]; simp
  unfold handlePrivateMessageBobBody
  simp only [ht, Bool.not_true, Bool.false_eq_true, if_false, if_true, hbeq]
  split <;> rfl

theorem bobBody_pinned_other (st : BobState) (p : String) (payload : DecryptedPayload)
    (f : String) (hpin : st.alicePeerId = some p) (hp : p ≠ "") (hf : f ≠ p) :
    handlePrivateMessageBobBody st payload f = .ok st := by
  have ht : truthyOptStr st.alicePeerId = true := by rw [hpin]; exact truthyOptStr_some hp
  have hbeq : (st.alicePeerId == some f) = false := by
    rw [hpin]; simp [beq_iff_eq]; exact fun h => hf h.symm
  unfold handlePrivateMessageBobBody
  simp only [ht, Bool.not_true, Bool.false_eq_true, if_false, if_true, hbeq]
  rfl

theorem bob_pinned_from (st : BobState) (p : String) (payload : DecryptedPayload)
    (hpin : st.alicePeerId = some p) (hp : p ≠ "") :
    handlePrivateMessageBob st payload p =
      (if isAcknowledgment (parseOrString payload) then
        { st with acknowledgmentReceived := true,
                  acknowledgmentData := some (parseOrString payload) }
      else st) := by
  unfold handlePrivateMessageBob
  rw [bobBody_pinned_from st p payload hpin hp]
  by_cases ha : isAcknowledgment (parseOrString payload) = true <;> simp [ha]

theorem bob_pinned_other (st : BobState) (p : String) (payload : DecryptedPayload)
    (f : String) (hpin : st.alicePeerId = some p) (hp : p ≠ "") (hf : f ≠ p) :
    handlePrivateMessageBob st payload f = st := by
  unfold handlePrivateMessageBob
  rw [bobBody_pinned_other st p payload f hpin hp hf]

theorem a1_nonJson (st : Alice1State) (s f : String) :
    handlePrivateMessageA1 st (.nonJson s) f = st := by
  unfold handlePrivateMessageA1 handlePrivateMessageA1Body
  simp only [parseOrString, isTestMessage, Bool.false_eq_true, if_false]
  rfl

theorem a2_nonJson (st : Alice2State) (s f : String) :
    handlePrivateMessageA2 st (.nonJson s) f = st := by
  unfold handlePrivateMessageA2 handlePrivateMessageA2Body
  simp only [parseOrString, isTestMessage, Bool.false_eq_true, if_false]
  rfl

theorem totality_test :
    (∀ (st : Alice1State) (payload : DecryptedPayload) (f : String),
        ∃ st1, handlePrivateMessageA1Body st payload f = .ok st1)
    ∧ (∀ (st : Alice2State) (payload : DecryptedPayload) (f : String),
        ∃ st1, handlePrivateMessageA2Body st payload f = .ok st1)
    ∧ (∀ (st : BobState) (payload : DecryptedPayload) (f : String),
        ∃ st1, handlePrivateMessageBobBody st payload f = .ok st1) := by
  refine ⟨fun st payload f => ?_, fun st payload f => ?_, fun st payload f => ?_⟩
  · unfold handlePrivateMessageA1Body
    dsimp only
    repeat' split
    all_goals exact ⟨_, rfl⟩
  · unfold handlePrivateMessageA2Body
    dsimp only
    repeat' split
    all_goals exact ⟨_, rfl⟩
  · unfold handlePrivateMessageBobBody
    dsimp only
    repeat' split
    all_goals exact ⟨_, rfl⟩

theorem setKeyFirst_filter_same (l : List PeerDataEntry) (pid key : String) :
    (setKeyFirst l pid key).filter (fun x => x.fromF == pid) =
      match l.filter (fun x => x.fromF == pid) with
      | [] => []
      | e :: rest => { e with data := some { encryptPubKey := some key } } :: rest := by
  induction l with
  | nil => rfl
  | cons a t ih =>
    by_cases ha : (a.fromF == pid) = true
    · simp [setKeyFirst, ha, List.filter_cons]
    · simp [setKeyFirst, ha, List.filter_cons, ih]

theorem setKeyFirst_filter_other (l : List PeerDataEntry) (pid key q : String)
    (hq : q ≠ pid) :
    (setKeyFirst l pid key).filter (fun x => x.fromF == q) =
      l.filter (fun x => x.fromF == q) := by
  induction l with
  | nil => rfl
  | cons a t ih =>
    by_cases ha : (a.fromF == pid) = true
    · have hfa : a.fromF = pid := by simpa [beq_iff_eq] using ha
      have haq : (a.fromF == q) = false := by simp [beq_iff_eq, hfa]; exact fun h => hq h.symm
      simp only [setKeyFirst, ha, if_true, List.filter_cons, haq, Bool.false_eq_true, if_false]
    · simp only [setKeyFirst, ha, Bool.false_eq_true, if_false, List.filter_cons]
      by_cases haq : (a.fromF == q) = true <;> simp [haq, ih]

theorem setKeyFirst_mapFrom (l : List PeerDataEntry) (pid key : String) :
    (setKeyFirst l pid key).map (fun x => x.fromF) = l.map (fun x => x.fromF) := by
  induction l with
  | nil => rfl
  | cons a t ih =>
    by_cases ha : (a.fromF == pid) = true <;>
      simp only [setKeyFirst, ha, if_true, Bool.false_eq_true, if_false, List.map_cons, ih]

theorem merge_existing_truthy (node : ThisNode) (pid key : String) (e : PeerDataEntry)
    (rest : List PeerDataEntry)
    (h : node.peerData.filter (fun x => x.fromF == pid) = e :: rest)
    (hte : truthyData e = true) :
    addPeerWithKeyRunTest node pid key = node := by
  unfold addPeerWithKeyRunTest
  rw [h]
  simp [hte]

theorem merge_idem_aux (node : ThisNode) (pid key : String) (hk : key ≠ "") :
    addPeerWithKeyRunTest (addPeerWithKeyRunTest node pid key) pid key
      = addPeerWithKeyRunTest node pid key := by
  have htk : truthyData (freshEntry pid key) = true := by
    simp [freshEntry, truthyData, truthyOptStr, hk]
  cases h : node.peerData.filter (fun x => x.fromF == pid) with
  | nil =>
    have h1 : addPeerWithKeyRunTest node pid key =
        { peerList := if node.peerList.contains pid then node.peerList
                      else node.peerList ++ [pid]
          peerData := node.peerData ++ [freshEntry pid key] } := by
      unfold addPeerWithKeyRunTest
      rw [h]
      rfl
    rw [h1]
    have h2 : ((node.peerData ++ [freshEntry pid key]).filter
        (fun x => x.fromF == pid)) = [freshEntry pid key] := by
      rw [List.filter_append, h]
      simp [freshEntry]
    conv_lhs => unfold addPeerWithKeyRunTest
    rw [h2]
    simp [htk]
  | cons e rest =>
    by_cases hte : truthyData e = true
    · have h1 := merge_existing_truthy node pid key e rest h hte
      rw [h1, h1]
    · have h1 : addPeerWithKeyRunTest node pid key =
          { node with peerData := setKeyFirst node.peerData pid key } := by
        unfold addPeerWithKeyRunTest
        rw [h]
        simp [hte]
      rw [h1]
      have h2 : ((setKeyFirst node.peerData pid key).filter (fun x => x.fromF == pid)) =
          { e with data := some { encryptPubKey := some key } } :: rest := by
        rw [setKeyFirst_filter_same, h]
      conv_lhs => unfold addPeerWithKeyRunTest
      rw [h2]
      simp [truthyData, truthyOptStr, hk]

theorem merge_preserves_truthy_record (node : ThisNode) (pid key : String)
    (r : PeerDataEntry) (hr : firstPeerRecord node pid = some r)
    (htr : truthyData r = true) :
    addPeerWithKeyRunTest node pid key = node := by
  unfold firstPeerRecord at hr
  cases h : node.peerData.filter (fun x => x.fromF == pid) with
  | nil => rw [h] at hr; exact absurd hr (by simp)
  | cons e rest =>
    rw [h] at hr
    have : e = r := by simpa using hr
    subst this
    exact merge_existing_truthy node pid key e rest h htr

theorem merge_other_record_unchanged (node : ThisNode) (pid key q : String)
    (hq : q ≠ pid) :
    firstPeerRecord (addPeerWithKeyRunTest node pid key) q = firstPeerRecord node q := by
  unfold addPeerWithKeyRunTest
  cases h : node.peerData.filter (fun x => x.fromF == pid) with
  | nil =>
    unfold firstPeerRecord
    have hq2 : (pid == q) = false := by
      simp [beq_iff_eq]
      exact fun h => hq h.symm
    simp [List.filter_append, hq2]
  | cons e rest =>
    by_cases hte : truthyData e = true
    · simp [hte]
    · simp only [hte, Bool.not_false, Bool.false_eq_true, if_true]
      unfold firstPeerRecord
      simp only
      rw [setKeyFirst_filter_other node.peerData pid key q hq]

theorem wrapper_eq_runTest_merge (node : ThisNode) (pid key : String) :
    addPeerWithKeyWrapper node pid key = addPeerWithKeyRunTest node pid key := by
  unfold addPeerWithKeyWrapper addPeerWithKeyRunTest
  rfl

theorem handler_eq_runTest_merge (node : ThisNode) (pid key : String) :
    addPeerWithKeyHandler node pid key = addPeerWithKeyRunTest node pid key := by
  unfold addPeerWithKeyHandler addPeerWithKeyRunTest
  rfl

theorem mergeKeyIfAbsent_mapFrom (l : List PeerDataEntry) (pid : String) (key : Option String) :
    (mergeKeyIfAbsent l pid key).map (fun x => x.fromF) = l.map (fun x => x.fromF) := by
  induction l with
  | nil => rfl
  | cons a t ih =>
    by_cases ha : (a.fromF == pid) = true
    · by_cases hta : truthyData a = true <;>
        simp [mergeKeyIfAbsent, ha, hta]
    · simp [mergeKeyIfAbsent, ha, ih]

theorem filter_nil_not_mem_mapFrom (l : List PeerDataEntry) (pid : String)
    (h : l.filter (fun x => x.fromF == pid) = []) :
    pid ∉ l.map (fun x => x.fromF) := by
  intro hmem
  obtain ⟨x, hx, hfx⟩ := List.mem_map.mp hmem
  have hpx := List.filter_eq_nil_iff.mp h x hx
  rw [hfx] at hpx
  simp at hpx

theorem merge_invariant_step (node : ThisNode) (pid key : String)
    (hinv : RegistryInvariant node) :
    RegistryInvariant (addPeerWithKeyRunTest node pid key)
    ∧ ∃ tail, (addPeerWithKeyRunTest node pid key).peerList = node.peerList ++ tail := by
  obtain ⟨hlist, hdata⟩ := hinv
  unfold addPeerWithKeyRunTest
  cases h : node.peerData.filter (fun x => x.fromF == pid) with
  | nil =>
    constructor
    · constructor
      · by_cases hc : pid ∈ node.peerList
        · simpa [hc] using hlist
        · simp [hc, List.nodup_append, hlist]
      · have hnm := filter_nil_not_mem_mapFrom node.peerData pid h
        simp [List.nodup_append, hdata, hnm]
    · by_cases hc : pid ∈ node.peerList
      · exact ⟨[], by simp [hc]⟩
      · exact ⟨[pid], by simp [hc]⟩
  | cons e rest =>
    by_cases hte : truthyData e = true
    · simp only [hte, Bool.not_true, Bool.false_eq_true, if_false]
      exact ⟨⟨hlist, hdata⟩, ⟨[], by simp⟩⟩
    · simp only [hte, Bool.not_false, if_true]
      refine ⟨⟨hlist, ?_⟩, ⟨[], by simp⟩⟩
      rw [setKeyFirst_mapFrom]
      exact hdata

theorem discovery_invariant_step (node : ThisNode) (pid : String) (key : Option String)
    (hinv : RegistryInvariant node) :
    RegistryInvariant (discoveryObserve node pid key)
    ∧ ∃ tail, (discoveryObserve node pid key).peerList = node.peerList ++ tail := by
  obtain ⟨hlist, hdata⟩ := hinv
  unfold discoveryObserve
  cases h : node.peerData.filter (fun x => x.fromF == pid) with
  | nil =>
    constructor
    · constructor
      · by_cases hc : pid ∈ node.peerList
        · simpa [hc] using hlist
        · simp [hc, List.nodup_append, hlist]
      · have hnm := filter_nil_not_mem_mapFrom node.peerData pid h
        simp [List.nodup_append, hdata, hnm]
    · by_cases hc : pid ∈ node.peerList
      · exact ⟨[], by simp [hc]⟩
      · exact ⟨[pid], by simp [hc]⟩
  | cons e rest =>
    refine ⟨⟨hlist, ?_⟩, ⟨[], by simp⟩⟩
    rw [mergeKeyIfAbsent_mapFrom]
    exact hdata

theorem applyEvent_invariant_step (node : ThisNode) (ev : RegistryEvent)
    (hinv : RegistryInvariant node) :
    RegistryInvariant (applyEvent node ev)
    ∧ ∃ tail, (applyEvent node ev).peerList = node.peerList ++ tail := by
  cases ev with
  | inboundKey pid key => exact merge_invariant_step node pid key hinv
  | discovery pid key => exact discovery_invariant_step node pid key hinv

theorem applyEvents_invariant (init : ThisNode) (evs : List RegistryEvent)
    (hinv : RegistryInvariant init) :
    RegistryInvariant (applyEvents init evs)
    ∧ ∃ tail, (applyEvents init evs).peerList = init.peerList ++ tail := by
  induction evs generalizing init with
  | nil => exact ⟨hinv, ⟨[], by simp [applyEvents]⟩⟩
  | cons ev t ih =>
    obtain ⟨h1, t1, ht1⟩ := applyEvent_invariant_step init ev hinv
    obtain ⟨h2, t2, ht2⟩ := ih (applyEvent init ev) h1
    refine ⟨by simpa [applyEvents] using h2, ⟨t1 ++ t2, ?_⟩⟩
    simp only [applyEvents, List.foldl_cons] at ht2 ⊢
    rw [ht2, ht1, List.append_assoc]

theorem pollFalse_timedOut (description : String) (sleepDur : Nat → Nat)
    (hs : ∀ k, 500 ≤ sleepDur k) :
    ∀ (fuel elapsed evals : Nat), 500 * evals ≤ elapsed → 5000 ≤ elapsed + 500 * fuel →
      evals ≤ 10 →
      ∃ n e, pollUntilRun (fun _ => false) 500 5000 description sleepDur fuel elapsed evals
          = .timedOut (timeoutErrMsg description 5000) n e ∧ 5000 ≤ e ∧ n ≤ 10 := by
  intro fuel
  induction fuel with
  | zero =>
    intro elapsed evals h1 h2 h3
    have he : ¬ elapsed < 5000 := by omega
    refine ⟨evals, elapsed, ?_, by omega, h3⟩
    unfold pollUntilRun
    simp [he]
  | succ f ih =>
    intro elapsed evals h1 h2 h3
    by_cases he : elapsed < 5000
    · have hsk := hs evals
      have h1n : 500 * (evals + 1) ≤ elapsed + sleepDur evals := by omega
      have h2n : 5000 ≤ (elapsed + sleepDur evals) + 500 * f := by omega
      have h3n : evals + 1 ≤ 10 := by omega
      obtain ⟨n, e, heq, hge, hle⟩ := ih (elapsed + sleepDur evals) (evals + 1) h1n h2n h3n
      refine ⟨n, e, ?_, hge, hle⟩
      unfold pollUntilRun
      simp only [he, if_true]
      simpa using heq
    · refine ⟨evals, elapsed, ?_, by omega, h3⟩
      unfold pollUntilRun
      simp [he]

theorem jsNumOrNull_eq (v : Option Int) : jsNumOrNull v = if v = some 0 then none else v := by
  cases v with
  | none => simp [jsNumOrNull]
  | some n =>
    by_cases hn : n = 0 <;> simp [jsNumOrNull, hn]

theorem jsStrOrNull_eq (v : Option String) : jsStrOrNull v = if v = some "" then none else v := by
  cases v with
  | none => simp [jsStrOrNull]
  | some s =>
    by_cases hs : s = "" <;> simp [jsStrOrNull, hs]

theorem composeAcknowledgment_eq (e : Envelope) (now : String) :
    composeAcknowledgment (some (.obj e)) now =
      { acknowledgment := true
        receivedRandomNumber := if e.randomNumber = some 0 then none else e.randomNumber
        originalTimestamp := if e.timestamp = some "" then none else e.timestamp
        timestamp := now
        fromF := "alice" } := by
  unfold composeAcknowledgment msgRandomNumber msgTimestamp
  rw [jsNumOrNull_eq, jsStrOrNull_eq]

theorem runTestAfterProbe_completed (pid : String) (e : Envelope) (k : String)
    (node : ThisNode) (now : String) (hpid : pid ≠ "") (hk : e.encryptPubKey = some k)
    (hke : k ≠ "") :
    runTestAfterProbe (some pid) (some (.obj e)) node now =
      .completed [{ toPeer := pid, message := composeAcknowledgment (some (.obj e)) now }]
        (addPeerWithKeyRunTest node pid k) := by
  have ht : truthyOptStr (some pid) = true := truthyOptStr_some hpid
  have hkey : truthyEncryptKey (some (.obj e)) = some k := by
    simp [truthyEncryptKey, msgEncryptPubKey, hk, truthyOptStr, hke]
  unfold runTestAfterProbe
  rw [ht, hkey]
  rfl

theorem runTestAfterProbe_missing_key (pid : String) (e : Envelope)
    (node : ThisNode) (now : String) (hpid : pid ≠ "") (hk : e.encryptPubKey = none) :
    runTestAfterProbe (some pid) (some (.obj e)) node now =
      .failed "Bob\x27s encryption public key not found in test message" [] node := by
  have ht : truthyOptStr (some pid) = true := truthyOptStr_some hpid
  have hkey : truthyEncryptKey (some (.obj e)) = none := by
    simp [truthyEncryptKey, msgEncryptPubKey, hk, truthyOptStr]
  unfold runTestAfterProbe
  rw [ht, hkey]
  rfl

/-- C1 (amended): for every classified probe carried to the send step with a
truthy embedded key, the responder workflow issues exactly one send, addressed
to the pinned peer identity, whose acknowledgment message carries
`acknowledgment: true`, the new timestamp `now`, echoes the probe
`randomNumber` unless it is 0 (which the `|| null` fallback collapses to
null) and the probe timestamp unless it is empty; in particular a probe
with `randomNumber` 482913 is echoed as 482913. -/
theorem ack_compose_spec (pid : String) (e : Envelope) (k : String)
    (node : ThisNode) (now : String) (hpid : pid ≠ "")
    (hprobe : isTestMessage (.obj e) = true)
    (hk : e.encryptPubKey = some k) (hke : k ≠ "") :
    runTestAfterProbe (some pid) (some (.obj e)) node now =
      .completed
        [{ toPeer := pid
           message :=
            { acknowledgment := true
              receivedRandomNumber := if e.randomNumber = some 0 then none else e.randomNumber
              originalTimestamp := if e.timestamp = some "" then none else e.timestamp
              timestamp := now
              fromF := "alice" } }]
        (addPeerWithKeyRunTest node pid k)
    ∧ (e.randomNumber = some 482913 →
        (composeAcknowledgment (some (.obj e)) now).receivedRandomNumber = some 482913) := by
  constructor
  · rw [runTestAfterProbe_completed pid e k node now hpid hk hke, composeAcknowledgment_eq]
  · intro hrn
    simp [composeAcknowledgment, msgRandomNumber, hrn, jsNumOrNull]

/-- C1 witness: a concrete probe with `randomNumber` 482913. -/
theorem ack_compose_spec_witness :
    runTestAfterProbe (some "bobPid")
        (some (.obj { test := some true, randomNumber := some 482913,
                      timestamp := some "T0", encryptPubKey := some "K" }))
        ⟨[], []⟩ "T1" =
      .completed
        [{ toPeer := "bobPid"
           message :=
            { acknowledgment := true
              receivedRandomNumber := if (some 482913 : Option Int) = some 0 then none else some 482913
              originalTimestamp := if (some "T0" : Option String) = some "" then none else some "T0"
              timestamp := "T1"
              fromF := "alice" } }]
        (addPeerWithKeyRunTest ⟨[], []⟩ "bobPid" "K")
    ∧ (composeAcknowledgment
        (some (.obj { test := some true, randomNumber := some 482913,
                      timestamp := some "T0", encryptPubKey := some "K" })) "T1").receivedRandomNumber
        = some 482913 := by
  have h := ack_compose_spec "bobPid"
    { test := some true, randomNumber := some 482913, timestamp := some "T0",
      encryptPubKey := some "K" } "K" ⟨[], []⟩ "T1"
    (by decide) (by decide) rfl (by decide)
  exact ⟨h.1, h.2 rfl⟩

/-- C1 counterexample: a probe whose `correlationValue` is 0 is classified as
a test message, but the composed acknowledgment echoes null (`none`), not 0,
because of the `|| null` fallback; so the acknowledgment does not always echo
the probe correlationValue. -/
theorem ack_echo_zero_counterexample :
    isTestMessage (.obj { test := some true, randomNumber := some 0,
                          timestamp := some "T0", encryptPubKey := some "K" }) = true
    ∧ runTestAfterProbe (some "bobPid")
        (some (.obj { test := some true, randomNumber := some 0,
                      timestamp := some "T0", encryptPubKey := some "K" }))
        ⟨[], []⟩ "T1" =
      .completed
        [{ toPeer := "bobPid"
           message := { acknowledgment := true, receivedRandomNumber := none,
                        originalTimestamp := some "T0", timestamp := "T1", fromF := "alice" } }]
        ⟨["bobPid"], [{ fromF := "bobPid", data := some { encryptPubKey := some "K" } }]⟩
    ∧ (none : Option Int) ≠ some 0 := by
  refine ⟨by decide, by decide, by decide⟩

/-- C2: the key-bootstrap merge is idempotent (merging the same truthy key
twice changes nothing after the first merge), never downgrades (a record
whose first match already carries a truthy key is left entirely unchanged,
and merges for one identity never touch another identity's first record),
and the raw inbound pre-processing hook computes exactly the same registry
transformation as the explicit merge in the message-exchange logic. -/
theorem merge_idempotent_no_downgrade :
    (∀ (node : ThisNode) (pid key : String), key ≠ "" →
        addPeerWithKeyRunTest (addPeerWithKeyRunTest node pid key) pid key
          = addPeerWithKeyRunTest node pid key)
    ∧ (∀ (node : ThisNode) (pid key : String) (r : PeerDataEntry),
        firstPeerRecord node pid = some r → truthyData r = true →
        addPeerWithKeyRunTest node pid key = node)
    ∧ (∀ (node : ThisNode) (pid key q : String), q ≠ pid →
        firstPeerRecord (addPeerWithKeyRunTest node pid key) q = firstPeerRecord node q)
    ∧ (∀ (node : ThisNode) (pid key : String),
        addPeerWithKeyWrapper node pid key = addPeerWithKeyRunTest node pid key) :=
  ⟨fun node pid key hk => merge_idem_aux node pid key hk,
   fun node pid key r hr htr => merge_preserves_truthy_record node pid key r hr htr,
   fun node pid key q hq => merge_other_record_unchanged node pid key q hq,
   fun node pid key => wrapper_eq_runTest_merge node pid key⟩

/-- C2 witness: concrete instances of each conjunct. -/
theorem merge_idempotent_no_downgrade_witness :
    addPeerWithKeyRunTest (addPeerWithKeyRunTest ⟨[], []⟩ "p" "K") "p" "K"
        = addPeerWithKeyRunTest ⟨[], []⟩ "p" "K"
    ∧ addPeerWithKeyRunTest ⟨["p"], [{ fromF := "p", data := some { encryptPubKey := some "OLD" } }]⟩ "p" "NEW"
        = ⟨["p"], [{ fromF := "p", data := some { encryptPubKey := some "OLD" } }]⟩
    ∧ firstPeerRecord (addPeerWithKeyRunTest ⟨[], []⟩ "p" "K") "q" = firstPeerRecord ⟨[], []⟩ "q"
    ∧ addPeerWithKeyWrapper ⟨[], []⟩ "p" "K" = addPeerWithKeyRunTest ⟨[], []⟩ "p" "K" :=
  ⟨merge_idempotent_no_downgrade.1 ⟨[], []⟩ "p" "K" (by decide),
   merge_idempotent_no_downgrade.2.1 ⟨["p"], [{ fromF := "p", data := some { encryptPubKey := some "OLD" } }]⟩
     "p" "NEW" { fromF := "p", data := some { encryptPubKey := some "OLD" } } (by decide) (by decide),
   merge_idempotent_no_downgrade.2.2.1 ⟨[], []⟩ "p" "K" "q" (by decide),
   merge_idempotent_no_downgrade.2.2.2 ⟨[], []⟩ "p" "K"⟩

/-- C3: once the responder has pinned a (non-empty) sender identity, an
envelope from any other sender leaves the state of either alice variant
entirely unchanged (flag, payload and pinned identity included), and
processing any message sequence equals processing just its
pinned-sender subsequence. -/
theorem pinned_peer_ignores_others :
    (∀ (st : Alice1State) (p : String) (payload : DecryptedPayload) (f : String),
        st.bobPeerId = some p → p ≠ "" → f ≠ p →
        handlePrivateMessageA1 st payload f = st)
    ∧ (∀ (st : Alice2State) (p : String) (payload : DecryptedPayload) (f : String),
        st.bobPeerId = some p → p ≠ "" → f ≠ p →
        handlePrivateMessageA2 st payload f = st)
    ∧ (∀ (st : Alice1State) (p : String) (msgs : List (DecryptedPayload × String)),
        st.bobPeerId = some p → p ≠ "" →
        handleSeqA1 st msgs = handleSeqA1 st (msgs.filter (fun m => m.2 == p))) :=
  ⟨fun st p payload f h1 h2 h3 => a1_pinned_other st p payload f h1 h2 h3,
   fun st p payload f h1 h2 h3 => a2_pinned_other st p payload f h1 h2 h3,
   fun st p msgs h1 h2 => handleSeqA1_filter_pinned msgs st p h1 h2⟩

/-- C3 witness: a pinned state ignores a classified probe from another
sender, and a mixed sequence collapses to its pinned subsequence. -/
theorem pinned_peer_ignores_others_witness :
    handlePrivateMessageA1 ⟨some "bob1", false, none⟩
        (.jsonOf { test := some true, randomNumber := some 7 }) "mallory"
      = ⟨some "bob1", false, none⟩
    ∧ handleSeqA1 ⟨some "bob1", false, none⟩
        [(.jsonOf { test := some true }, "mallory"), (.jsonOf { test := some true }, "bob1")]
      = handleSeqA1 ⟨some "bob1", false, none⟩
          ([(.jsonOf { test := some true }, "mallory"),
            (.jsonOf { test := some true }, "bob1")].filter (fun m => m.2 == "bob1")) :=
  ⟨pinned_peer_ignores_others.1 ⟨some "bob1", false, none⟩ "bob1" _ "mallory" rfl
     (by decide) (by decide),
   pinned_peer_ignores_others.2.2 ⟨some "bob1", false, none⟩ "bob1" _ rfl (by decide)⟩

/-- C4 (amended): on an always-false predicate with interval 500ms and
timeout 5000ms, `pollUntil` throws the timeout error carrying the supplied
description after at least 5000ms of elapsed time, with at most 10 predicate
evaluations (9 beyond the first) for any real sleep durations of at least
the interval. -/
theorem pollUntil_timeout_spec (description : String) (sleepDur : Nat → Nat)
    (hs : ∀ k, 500 ≤ sleepDur k) :
    ∃ n e, pollUntilRun (fun _ => false) 500 5000 description sleepDur 11 0 0
        = .timedOut (timeoutErrMsg description 5000) n e ∧ 5000 ≤ e ∧ n ≤ 10 :=
  pollFalse_timedOut description sleepDur hs 11 0 0 (by omega) (by omega) (by omega)

/-- C4 witness: the exact-sleep run. -/
theorem pollUntil_timeout_spec_witness :
    ∃ n e, pollUntilRun (fun _ => false) 500 5000 "Alice announcement" (fun _ => 500) 11 0 0
        = .timedOut (timeoutErrMsg "Alice announcement" 5000) n e ∧ 5000 ≤ e ∧ n ≤ 10 :=
  pollUntil_timeout_spec "Alice announcement" (fun _ => 500) (fun k => le_refl 500)

/-- C4 counterexample: with exact 500ms sleeps the always-false run performs
exactly 10 predicate evaluations before throwing at 5000ms elapsed, i.e. 9
attempts beyond the first, contradicting the claimed bound of at most 5
beyond the first (at most 6 in total). -/
theorem pollUntil_eval_count_counterexample :
    pollUntilRun (fun _ => false) 500 5000 "Alice announcement" (fun _ => 500) 11 0 0
      = .timedOut (timeoutErrMsg "Alice announcement" 5000) 10 5000
    ∧ ¬ (10 ≤ 1 + 5) := by
  refine ⟨by decide, by decide⟩

/-- C5: an inbound envelope from the resolved peer carrying the
acknowledgment marker is accepted — the flag is set and the payload stored —
even when its echoed `receivedRandomNumber` differs from the
`randomNumber` the initiator sent; correlation is never inspected. -/
theorem ack_accepted_despite_mismatch (st : BobState) (p : String) (e : Envelope)
    (sentRn echoed : Int) (hpin : st.alicePeerId = some p) (hp : p ≠ "")
    (hack : truthyOptBool e.acknowledgment = true)
    (hech : e.receivedRandomNumber = some echoed) (hne : echoed ≠ sentRn) :
    handlePrivateMessageBob st (.jsonOf e) p
      = { st with acknowledgmentReceived := true, acknowledgmentData := some (.obj e) } := by
  rw [bob_pinned_from st p (.jsonOf e) hpin hp]
  have : isAcknowledgment (parseOrString (.jsonOf e)) = true := by
    simp [parseOrString, isAcknowledgment, hack]
  rw [this]
  simp [parseOrString]

/-- C5 witness: echoed 7 differs from the sent 482913, yet the
acknowledgment is accepted. -/
theorem ack_accepted_despite_mismatch_witness :
    handlePrivateMessageBob ⟨some "alice1", false, none⟩
        (.jsonOf { acknowledgment := some true, receivedRandomNumber := some 7,
                   fromF := some "alice" }) "alice1"
      = ⟨some "alice1", true,
         some (.obj { acknowledgment := some true, receivedRandomNumber := some 7,
                      fromF := some "alice" })⟩
    ∧ (7 : Int) ≠ 482913 := by
  refine ⟨?_, by decide⟩
  have h := ack_accepted_despite_mismatch ⟨some "alice1", false, none⟩ "alice1"
    { acknowledgment := some true, receivedRandomNumber := some 7, fromF := some "alice" }
    482913 7 rfl (by decide) (by decide) rfl (by decide)
  simpa using h

/-- C6: a valid probe lacking an embedded public key, with no truthy key on
file for the sender, makes the responder workflow throw the missing-key
error with an empty send list and an unchanged registry — the error is
raised strictly before any `sendPrivateMessage` call. -/
theorem missing_key_no_send (pid : String) (e : Envelope) (node : ThisNode)
    (now : String) (hpid : pid ≠ "") (hprobe : isTestMessage (.obj e) = true)
    (hk : e.encryptPubKey = none)
    (hnokey : ∀ r, firstPeerRecord node pid = some r → truthyData r = false) :
    runTestAfterProbe (some pid) (some (.obj e)) node now =
      .failed "Bob\x27s encryption public key not found in test message" [] node :=
  runTestAfterProbe_missing_key pid e node now hpid hk

/-- C6 witness: a concrete keyless probe against an empty registry. -/
theorem missing_key_no_send_witness :
    runTestAfterProbe (some "bobPid")
        (some (.obj { test := some true, randomNumber := some 5, timestamp := some "T0" }))
        ⟨[], []⟩ "T1" =
      .failed "Bob\x27s encryption public key not found in test message" [] ⟨[], []⟩ :=
  missing_key_no_send "bobPid"
    { test := some true, randomNumber := some 5, timestamp := some "T0" }
    ⟨[], []⟩ "T1" (by decide) (by decide) rfl (fun r hr => by simp [firstPeerRecord] at hr)

/-- C7: when the direct connection attempt fails (a false `success` result)
or throws, the connection phase continues with exactly the fallback
computation — which never reads the direct-connect error — and when the
fallback polls succeed (whatever the swallowed refresh outcome) the phase
completes successfully after polling for the announcement and the peer
data, re-triggering the connection refresh, and polling for connectivity. -/
theorem direct_connect_failure_not_fatal :
    (∀ (env : InitiatorEnv) (d : String), env.connect = .failedResult d →
        connectPhase env = (InitStep.directConnect :: (fallbackDiscovery env).1,
          (fallbackDiscovery env).2))
    ∧ (∀ (env : InitiatorEnv) (m : String), env.connect = .exn m →
        connectPhase env = (InitStep.directConnect :: (fallbackDiscovery env).1,
          (fallbackDiscovery env).2))
    ∧ (∀ env : InitiatorEnv, env.connect ≠ .success →
        env.pollAnnouncementOk = true → env.pollPeerDataFallbackOk = true →
        env.pollConnectionOk = true →
        connectPhase env = ([InitStep.directConnect, InitStep.announcementPoll,
          InitStep.peerDataFallbackPoll, InitStep.refreshConnections, InitStep.connectionPoll],
          Except.ok ())) := by
  refine ⟨fun env d h => ?_, fun env m h => ?_, fun env hne h1 h2 h3 => ?_⟩
  · unfold connectPhase directTryBody
    rw [h]
    rfl
  · unfold connectPhase directTryBody
    rw [h]
    rfl
  · cases hc : env.connect with
    | success => exact absurd hc hne
    | failedResult d =>
      unfold connectPhase directTryBody
      rw [hc]
      simp [fallbackDiscovery, h1, h2, h3]
    | exn m =>
      unfold connectPhase directTryBody
      rw [hc]
      simp [fallbackDiscovery, h1, h2, h3]

/-- C7 witness: a refused direct connection with succeeding fallback polls
and a failing refresh still completes the phase. -/
theorem direct_connect_failure_not_fatal_witness :
    connectPhase
        { connect := .failedResult "connection refused", connectedAfterDirect := false,
          pollVerifyOk := false, pollPeerDataDirectOk := false, pollAnnouncementOk := true,
          pollPeerDataFallbackOk := true, refreshOk := false, pollConnectionOk := true }
      = ([InitStep.directConnect, InitStep.announcementPoll, InitStep.peerDataFallbackPoll,
          InitStep.refreshConnections, InitStep.connectionPoll], Except.ok ()) :=
  direct_connect_failure_not_fatal.2.2
    { connect := .failedResult "connection refused", connectedAfterDirect := false,
      pollVerifyOk := false, pollPeerDataDirectOk := false, pollAnnouncementOk := true,
      pollPeerDataFallbackOk := true, refreshOk := false, pollConnectionOk := true }
    (by decide) rfl rfl rfl

/-- C8: over every sequence of discovery-broadcast and inbound-message
events, from any state satisfying the registry invariant, the registry keeps
at most one record per identity and a duplicate-free identity list, and the
identity list only ever grows by appending (insert-if-absent). -/
theorem registry_unique_append_only (init : ThisNode) (evs : List RegistryEvent)
    (hinv : RegistryInvariant init) :
    RegistryInvariant (applyEvents init evs)
    ∧ ∃ tail, (applyEvents init evs).peerList = init.peerList ++ tail :=
  applyEvents_invariant init evs hinv

/-- C8 witness: a concrete mixed event sequence with repeats, from the empty
registry the programs start with. -/
theorem registry_unique_append_only_witness :
    RegistryInvariant (applyEvents ⟨[], []⟩
      [.discovery "a" none, .inboundKey "b" "K", .inboundKey "b" "K", .discovery "a" (some "Q")])
    ∧ ∃ tail, (applyEvents ⟨[], []⟩
      [.discovery "a" none, .inboundKey "b" "K", .inboundKey "b" "K", .discovery "a" (some "Q")]).peerList
        = [] ++ tail :=
  registry_unique_append_only ⟨[], []⟩
    [.discovery "a" none, .inboundKey "b" "K", .inboundKey "b" "K", .discovery "a" (some "Q")]
    ⟨List.nodup_nil, List.nodup_nil⟩

/-- C9 (amended): an unparseable inbound payload never alters the state of
either alice variant and never aborts any handler; on the bob side, with the
target identity already pinned, an unparseable payload is dropped unchanged
unless its raw text contains "ack" (case-insensitively), in which case the
loose content sniffing classifies it as an acknowledgment and accepts it. -/
theorem parse_failure_handling_spec :
    (∀ (st : Alice1State) (s f : String), handlePrivateMessageA1 st (.nonJson s) f = st)
    ∧ (∀ (st : Alice2State) (s f : String), handlePrivateMessageA2 st (.nonJson s) f = st)
    ∧ (∀ (st : BobState) (p s f : String), st.alicePeerId = some p → p ≠ "" →
        isAcknowledgment (.str s) = false → handlePrivateMessageBob st (.nonJson s) f = st)
    ∧ (∀ (st : BobState) (p s : String), st.alicePeerId = some p → p ≠ "" →
        isAcknowledgment (.str s) = true →
        handlePrivateMessageBob st (.nonJson s) p
          = { st with acknowledgmentReceived := true, acknowledgmentData := some (.str s) }) := by
  refine ⟨fun st s f => a1_nonJson st s f, fun st s f => a2_nonJson st s f,
    fun st p s f hpin hp hno => ?_, fun st p s hpin hp hyes => ?_⟩
  · by_cases hf : f = p
    · subst hf
      rw [bob_pinned_from st f (.nonJson s) hpin hp]
      simp [parseOrString, hno]
    · exact bob_pinned_other st p (.nonJson s) f hpin hp hf
  · rw [bob_pinned_from st p (.nonJson s) hpin hp]
    simp [parseOrString, hyes]

/-- C9 witness: concrete instances of the amended behavior. -/
theorem parse_failure_handling_spec_witness :
    handlePrivateMessageA1 ⟨none, false, none⟩ (.nonJson "garbage") "x" = ⟨none, false, none⟩
    ∧ handlePrivateMessageBob ⟨some "alice", false, none⟩ (.nonJson "hello") "alice"
        = ⟨some "alice", false, none⟩
    ∧ handlePrivateMessageBob ⟨some "alice", false, none⟩ (.nonJson "ack") "alice"
        = ⟨some "alice", true, some (.str "ack")⟩ := by
  refine ⟨parse_failure_handling_spec.1 ⟨none, false, none⟩ "garbage" "x", ?_, ?_⟩
  · have h := parse_failure_handling_spec.2.2.1 ⟨some "alice", false, none⟩ "alice" "hello"
      "alice" rfl (by decide) (by decide)
    simpa using h
  · have h := parse_failure_handling_spec.2.2.2 ⟨some "alice", false, none⟩ "alice" "ack"
      rfl (by decide) (by decide)
    simpa using h

/-- C9 counterexample: a payload that fails to parse but whose raw text
contains "ack" is not dropped on the initiator side: it is classified as an
acknowledgment and flips the test state, refuting the claim that parse
failures match no classification and never alter state on both roles. -/
theorem parse_failure_ack_string_counterexample :
    handlePrivateMessageBob ⟨some "alice", false, none⟩ (.nonJson "ack") "alice"
      = ⟨some "alice", true, some (.str "ack")⟩
    ∧ (⟨some "alice", true, some (.str "ack")⟩ : BobState) ≠ ⟨some "alice", false, none⟩ := by
  refine ⟨by decide, by decide⟩

/-- C10: for every decrypted payload of any shape and every sender identity,
the body of each private-message handler returns normally (no branch
throws), so the surrounding catch-all never fires and no inbound message
can propagate an exception out of the handler. -/
theorem handlers_total_no_throw :
    (∀ (st : Alice1State) (payload : DecryptedPayload) (f : String),
        ∃ st1, handlePrivateMessageA1Body st payload f = .ok st1)
    ∧ (∀ (st : Alice2State) (payload : DecryptedPayload) (f : String),
        ∃ st1, handlePrivateMessageA2Body st payload f = .ok st1)
    ∧ (∀ (st : BobState) (payload : DecryptedPayload) (f : String),
        ∃ st1, handlePrivateMessageBobBody st payload f = .ok st1) :=
  totality_test
